import Mathlib

/-!
Shallow embedding of `src/report-api/src/api/services/report_service.py`
(class `ReportService`): the paginated document composition pipeline.

External collaborators (the Gotenberg rendering service reached through
`requests.post`, the chunking collaborator `ChunkReportService`, the Jinja
template engine, and the pikepdf library) are modelled as oracle fields of an
`Env` record.  PDF byte strings are modelled by an inductive `Bytes` type that
either is an opaque blob or carries the page list of a well-formed PDF, so
that opening and page counting can be given meaning.  Python dictionaries are
association lists; because `generate_single_footer_pdf` relies on `dict.copy`
followed by in-place item assignment, dictionaries are threaded through an
explicit reference store so that (absence of) mutation is observable.
Every pipeline function additionally returns the list of externally visible
events (HTTP render calls, chunk delegation, footer-template renders, log
lines) it produced, in order.
-/

/-- Python values as far as the pipeline inspects them (truthiness and
dictionary entries). -/
inductive Value where
  | vNone
  | vBool (b : Bool)
  | vNat (n : Nat)
  | vStr (s : String)
  | vList (l : List Value)
deriving Repr

mutual

/-- Boolean equality on `Value` (hand-rolled: nested inductive). -/
def Value.beq : Value → Value → Bool
  | .vNone, .vNone => true
  | .vBool a, .vBool b => a == b
  | .vNat a, .vNat b => a == b
  | .vStr a, .vStr b => a == b
  | .vList a, .vList b => Value.beqList a b
  | _, _ => false

/-- Boolean equality on `List Value`. -/
def Value.beqList : List Value → List Value → Bool
  | [], [] => true
  | x :: xs, y :: ys => Value.beq x y && Value.beqList xs ys
  | _, _ => false

end

mutual

theorem Value.eq_of_beq : ∀ (a b : Value), Value.beq a b = true → a = b
  | .vNone, .vNone, _ => rfl
  | .vBool _, .vBool _, h => by
    simp only [Value.beq, beq_iff_eq] at h; simp [h]
  | .vNat _, .vNat _, h => by
    simp only [Value.beq, beq_iff_eq] at h; simp [h]
  | .vStr _, .vStr _, h => by
    simp only [Value.beq, beq_iff_eq] at h; simp [h]
  | .vList a, .vList b, h => by
    have := Value.eqList_of_beq a b (by simpa [Value.beq] using h)
    simp [this]
  | .vNone, .vBool _, h | .vNone, .vNat _, h | .vNone, .vStr _, h
  | .vNone, .vList _, h
  | .vBool _, .vNone, h | .vBool _, .vNat _, h | .vBool _, .vStr _, h
  | .vBool _, .vList _, h
  | .vNat _, .vNone, h | .vNat _, .vBool _, h | .vNat _, .vStr _, h
  | .vNat _, .vList _, h
  | .vStr _, .vNone, h | .vStr _, .vBool _, h | .vStr _, .vNat _, h
  | .vStr _, .vList _, h
  | .vList _, .vNone, h | .vList _, .vBool _, h | .vList _, .vNat _, h
  | .vList _, .vStr _, h => by simp [Value.beq] at h

theorem Value.eqList_of_beq : ∀ (a b : List Value), Value.beqList a b = true → a = b
  | [], [], _ => rfl
  | x :: xs, y :: ys, h => by
    simp only [Value.beqList, Bool.and_eq_true] at h
    have h1 := Value.eq_of_beq x y h.1
    have h2 := Value.eqList_of_beq xs ys h.2
    simp [h1, h2]
  | [], _ :: _, h | _ :: _, [], h => by simp [Value.beqList] at h

end

mutual

theorem Value.beq_refl : ∀ (a : Value), Value.beq a a = true
  | .vNone => rfl
  | .vBool _ => by simp [Value.beq]
  | .vNat _ => by simp [Value.beq]
  | .vStr _ => by simp [Value.beq]
  | .vList l => by simpa [Value.beq] using Value.beqList_refl l

theorem Value.beqList_refl : ∀ (a : List Value), Value.beqList a a = true
  | [] => rfl
  | x :: xs => by
    simp only [Value.beqList, Bool.and_eq_true]
    exact ⟨Value.beq_refl x, Value.beqList_refl xs⟩

end

instance : DecidableEq Value := fun a b =>
  if h : Value.beq a b = true then .isTrue (Value.eq_of_beq a b h)
  else .isFalse (fun heq => h (by cases heq; exact Value.beq_refl a))

/-- A Python dict, as an insertion-ordered association list with unique keys. -/
abbrev TemplateArgs := List (String × Value)

/-- Python truthiness (`bool(x)`) for the modelled values. -/
def truthy : Value → Bool
  | .vNone => false
  | .vBool b => b
  | .vNat n => n != 0
  | .vStr s => s != ""
  | .vList l => !l.isEmpty

/-- `d.get(key)` on a dict: first binding of `key`, if any. -/
def getKey? : TemplateArgs → String → Option Value
  | [], _ => none
  | (k, v) :: rest, key => if k = key then some v else getKey? rest key

/-- `d[key] = v` on a dict: replace in place, else append (insertion order). -/
def setKey : TemplateArgs → String → Value → TemplateArgs
  | [], key, v => [(key, v)]
  | (k, w) :: rest, key, v =>
    if k = key then (key, v) :: rest else (k, w) :: setKey rest key v

/-- A reference to a mutable dict in the store. -/
abbrev Ref := Nat

/-- The heap of mutable dictionaries. -/
abbrev Store := List TemplateArgs

/-- Dereference (an out-of-range reference reads as the empty dict). -/
def readRef (st : Store) (r : Ref) : TemplateArgs := st.getD r []

/-- `d.copy()` / allocation of a fresh dict holding `d`. -/
def alloc (st : Store) (d : TemplateArgs) : Store × Ref := (st ++ [d], st.length)

/-- In-place `store[r][key] = v`. -/
def writeKey (st : Store) (r : Ref) (key : String) (v : Value) : Store :=
  st.set r (setKey (readRef st r) key v)

/-- One page of a PDF: its own drawable content and the contents overlaid
onto it so far (`pikepdf` `add_overlay` layers). -/
structure Page where
  content : Nat
  overlays : List Nat
deriving Repr, DecidableEq

/-- A byte string: either an opaque non-PDF blob or a serialized PDF carrying
its page list. -/
inductive Bytes where
  | raw (id : Nat)
  | pdf (pages : List Page)
deriving Repr, DecidableEq

/-- Modelled from the spec: `get_pdf_page_count`
(`api.services.page_info`, not under `src/`): "opens a PDF byte stream and
returns the number of pages; pure, read-only", with `N ≥ 0`. -/
def get_pdf_page_count : Bytes → Nat
  | .raw _ => 0
  | .pdf ps => ps.length

/-- Python exceptions the embedded fragment can raise. -/
inductive PyErr where
  | httpError (status : Nat)
  | attributeError
  | unmodelledDynamic
deriving Repr, DecidableEq

/-- Externally visible events of one pipeline run, in order. -/
inductive Event where
  | render (files : List (String × String)) (footerField : Option String)
  | chunkCall (templateName : Option String) (generatePageNumber : Bool)
  | footerCtx (args : TemplateArgs)
  | warn
  | err
deriving Repr, DecidableEq

/-- The footer-template render contexts recorded in a trace, in order. -/
def ctxsOf (tr : List Event) : List TemplateArgs :=
  tr.filterMap fun e => match e with | .footerCtx a => some a | _ => none

/-- The renderer (HTTP) calls recorded in a trace, in order:
the file parts and the optional `footer` form field. -/
def rendersOf (tr : List Event) : List (List (String × String) × Option String) :=
  tr.filterMap fun e => match e with | .render f d => some (f, d) | _ => none

/-- Oracles for the external collaborators of the pipeline. -/
structure Env where
  /-- `requests.post` to Gotenberg: file parts and optional `footer` field map
  to an HTTP status and a response body. -/
  render : List (String × String) → Option String → Nat × Bytes
  /-- `ChunkReportService.create_chunk_report` (out-of-scope collaborator). -/
  chunk : Option String → Option TemplateArgs → Bool → Bytes
  /-- The Jinja `statement_footer.html` template: `footer_template.render`. -/
  renderFooter : TemplateArgs → String
  /-- Sandboxed rendering of a decoded ad-hoc template string with args. -/
  renderAdhoc : String → Option TemplateArgs → String
  /-- Whether `pikepdf.Pdf.open` raises on this (pdf-shaped) byte string. -/
  openFails : Bytes → Bool
  /-- Whether `base_page.add_overlay(overlay_page)` raises for this pair. -/
  overlayFails : Page → Page → Bool
  /-- `hasattr(base_page, 'add_overlay')`. -/
  hasAddOverlay : Bool
  /-- Whether `result_pdf.save(...)` raises on this page list. -/
  saveFails : List Page → Bool
  /-- The bytes `pikepdf` serializes this page list to (a fresh
  serialization: not required to reproduce any input byte string). -/
  saveBytes : List Page → Bytes

/-- `pikepdf.Pdf.open(BytesIO(b))`: opening a non-PDF blob raises; opening a
serialized PDF yields its pages unless the oracle says the open raises. -/
def openPdf (env : Env) (b : Bytes) : Except Unit (List Page) :=
  match b with
  | .raw _ => .error ()
  | .pdf ps => if env.openFails b then .error () else .ok ps

/-- Python truthiness of the `footer_html` argument (`None` and `''` falsy). -/
def footerTruthy : Option String → Bool
  | none => false
  | some s => s != ""

/-- `'statement_report' in hay` (substring containment). -/
def strContains (hay needle : String) : Bool :=
  decide (needle.toList <:+: hay.toList)

/-- `is_statement = 'statement_report' in (template_name or '')`. -/
def is_statement_name (template_name : Option String) : Bool :=
  strContains (template_name.getD "") "statement_report"

/-- `has_grouped_invoices = bool((template_args or {}).get('groupedInvoices'))`. -/
def has_grouped (argsVal : Option TemplateArgs) : Bool :=
  truthy ((getKey? (argsVal.getD []) "groupedInvoices").getD .vNone)

/-- `resp.raise_for_status(); return resp.content`: `requests` raises
`HTTPError` exactly for statuses in `[400, 600)` (client and server errors);
all other statuses return the body. -/
def httpResult (resp : Nat × Bytes) : Except PyErr Bytes :=
  if 400 ≤ resp.1 ∧ resp.1 < 600 then .error (.httpError resp.1) else .ok resp.2

/-- `ReportService.generate_pdf`: one render call with an `index.html` part,
plus a `footer.html` part and a `footer` form field exactly when
`generate_page_number and footer_html` is truthy. -/
def generate_pdf (env : Env) (html_out : String) (generate_page_number : Bool)
    (footer_html : Option String) : Except PyErr Bytes × List Event :=
  let withFooter := generate_page_number && footerTruthy footer_html
  let files :=
    if withFooter then
      [("index.html", html_out), ("footer.html", footer_html.getD "")]
    else [("index.html", html_out)]
  let data := if withFooter then some "footer.html" else none
  (httpResult (env.render files data), [.render files data])

/-- The empty primary document submitted by the footer generator. -/
def emptyHtml : String := "<!DOCTYPE html>"

/-- `page_args = template_args.copy(); page_args['current_page'] = cp;
page_args['total_pages'] = tp` — the value the fresh dict ends up holding. -/
def page_args_for (d : TemplateArgs) (cp tp : Nat) : TemplateArgs :=
  setKey (setKey d "current_page" (.vNat cp)) "total_pages" (.vNat tp)

/-- `ReportService.generate_single_footer_pdf`: copies `template_args`, sets
`current_page`/`total_pages` on the copy, renders the footer template with the
copy, and performs one render call with an empty `index.html` part, the
`footer.html` part, and the `footer` form field.  A `None` `template_args`
raises `AttributeError` at `.copy()`. -/
def generate_single_footer_pdf (env : Env) (st : Store) (template_args : Option Ref)
    (current_page total_pages : Nat) : Except PyErr Bytes × Store × List Event :=
  match template_args with
  | none => (.error .attributeError, st, [])
  | some r =>
    let a := alloc st (readRef st r)
    let st2 := writeKey a.1 a.2 "current_page" (.vNat current_page)
    let st3 := writeKey st2 a.2 "total_pages" (.vNat total_pages)
    let page_args := readRef st3 a.2
    let footer_html := env.renderFooter page_args
    let files := [("index.html", emptyHtml), ("footer.html", footer_html)]
    (httpResult (env.render files (some "footer.html")),
     st3, [.footerCtx page_args, .render files (some "footer.html")])

/-- The `for i in range(total_pages)` loop of `_generate_footer_pdfs`,
over the list of 1-based page numbers still to process; an exception from
`generate_single_footer_pdf` propagates and aborts the loop. -/
def footerLoop (env : Env) (template_args : Option Ref) (total_pages : Nat) :
    List Nat → Store → Except PyErr (List Bytes) × Store × List Event
  | [], st => (.ok [], st, [])
  | p :: ps, st =>
    match generate_single_footer_pdf env st template_args p total_pages with
    | (.error e, st', evs) => (.error e, st', evs)
    | (.ok b, st', evs) =>
      match footerLoop env template_args total_pages ps st' with
      | (.error e, st'', evs') => (.error e, st'', evs ++ evs')
      | (.ok bs, st'', evs') => (.ok (b :: bs), st'', evs ++ evs')

/-- `ReportService._generate_footer_pdfs`: one footer PDF per page
`1..total_pages`, collected in page order. -/
def generate_footer_pdfs (env : Env) (st : Store) (template_args : Option Ref)
    (total_pages : Nat) : Except PyErr (List Bytes) × Store × List Event :=
  footerLoop env template_args total_pages ((List.range total_pages).map (· + 1)) st

/-- `ReportService._overlay_page_content`: if the page has `add_overlay`,
overlay and swallow (log) any failure; otherwise do nothing. -/
def overlay_page_content (env : Env) (base_page overlay_page : Page) :
    Page × List Event :=
  if env.hasAddOverlay then
    if env.overlayFails base_page overlay_page then (base_page, [.warn])
    else ({ base_page with overlays := base_page.overlays ++ [overlay_page.content] }, [])
  else (base_page, [])

/-- One iteration of the overlay loop, for main page `main_page` at 0-based
index `i`: append the page to the result, and if a footer PDF exists for this
index, try to open it and overlay its first page; an open failure is caught
per page and logged. -/
def overlayOnePage (env : Env) (main_page : Page) (i : Nat)
    (footer_pdfs : List Bytes) : Page × List Event :=
  if h : i < footer_pdfs.length then
    match openPdf env (footer_pdfs.get ⟨i, h⟩) with
    | .error _ => (main_page, [.warn])
    | .ok fpages =>
      if h0 : 0 < fpages.length then
        overlay_page_content env main_page (fpages.get ⟨0, h0⟩)
      else (main_page, [])
  else (main_page, [])

/-- The `for i, main_page in enumerate(main_pdf.pages)` loop, starting from
0-based index `i`: builds the result page list and the warning trace. -/
def overlayLoop (env : Env) (footer_pdfs : List Bytes) :
    Nat → List Page → List Page × List Event
  | _, [] => ([], [])
  | i, p :: ps =>
    let q := overlayOnePage env p i footer_pdfs
    let rest := overlayLoop env footer_pdfs (i + 1) ps
    (q.1 :: rest.1, q.2 ++ rest.2)

/-- `ReportService._overlay_footer_pdfs_on_main_pdf`: open the main PDF, copy
each page into a fresh result overlaying its footer where possible, serialize;
any failure of the pass as a whole (open or save) is caught, logged, and the
first-pass bytes are returned unchanged. -/
def overlay_footer_pdfs_on_main_pdf (env : Env) (main_pdf_bytes : Bytes)
    (footer_pdfs : List Bytes) : Bytes × List Event :=
  match openPdf env main_pdf_bytes with
  | .error _ => (main_pdf_bytes, [.err])
  | .ok main_pages =>
    let res := overlayLoop env footer_pdfs 0 main_pages
    if env.saveFails res.1 then (main_pdf_bytes, res.2 ++ [.err])
    else (env.saveBytes res.1, res.2)

/-- `ReportService._generate_pdf_with_page_numbers`: first pass render, page
count, per-page footer generation, overlay pass. -/
def generate_pdf_with_page_numbers (env : Env) (st : Store)
    (template_args : Option Ref) (html_out : String) :
    Except PyErr Bytes × Store × List Event :=
  match generate_pdf env html_out false none with
  | (.error e, evs) => (.error e, st, evs)
  | (.ok first_pass_pdf, evs) =>
    let total_pages := get_pdf_page_count first_pass_pdf
    match generate_footer_pdfs env st template_args total_pages with
    | (.error e, st', evs') => (.error e, st', evs ++ evs')
    | (.ok footer_pdfs, st', evs') =>
      let res := overlay_footer_pdfs_on_main_pdf env first_pass_pdf footer_pdfs
      (.ok res.1, st', evs ++ evs' ++ res.2)

/-- `ReportService._finalize_pdf`: route to the chunking collaborator when the
name marks a statement report and `groupedInvoices` is truthy; else to the
multi-pass flow when it is a statement report and page numbers are requested;
else to a single direct render with `footer_html = None`. -/
def finalize_pdf (env : Env) (st : Store) (template_name : Option String)
    (template_args : Option Ref) (html_out : String)
    (generate_page_number : Bool) : Except PyErr Bytes × Store × List Event :=
  let argsVal := template_args.map (readRef st)
  if is_statement_name template_name && has_grouped argsVal then
    (.ok (env.chunk template_name argsVal generate_page_number), st,
     [.chunkCall template_name generate_page_number])
  else if is_statement_name template_name && generate_page_number then
    generate_pdf_with_page_numbers env st template_args html_out
  else
    let r := generate_pdf env html_out generate_page_number none
    (r.1, st, r.2)

/-- `report_name = (template_args or {}).get('reportName', '')`. -/
def report_name_of (args : Option TemplateArgs) : Value :=
  match args with
  | none => .vStr ""
  | some d => (getKey? d "reportName").getD (.vStr "")

/-- The fragment of Python dynamic typing we model for the report name: a
string is used as-is; any other value is outside the modelled fragment. -/
def valueAsName : Value → Option String
  | .vStr s => some s
  | _ => none

/-- `ReportService.create_report_from_template`: render the decoded,
sandboxed template, take `reportName` (default `''`) as the template name, and
funnel into `_finalize_pdf`. -/
def create_report_from_template (env : Env) (st : Store) (template_string : String)
    (template_args : Option Ref) (generate_page_number : Bool) :
    Except PyErr Bytes × Store × List Event :=
  let argsVal := template_args.map (readRef st)
  let html_out := env.renderAdhoc template_string argsVal
  match valueAsName (report_name_of argsVal) with
  | some s => finalize_pdf env st (some s) template_args html_out generate_page_number
  | none => (.error .unmodelledDynamic, st, [])

/-- The file parts of a footer-generation render call for context `pa`. -/
def footerFiles (env : Env) (pa : TemplateArgs) : List (String × String) :=
  [("index.html", emptyHtml), ("footer.html", env.renderFooter pa)]

/-- Page `i`'s footer processing fails inside the overlay loop: either opening
`footer_pdfs[i]` raises, or its first page exists and `add_overlay` onto the
main page `p` raises. -/
def footerPageFails (env : Env) (footer_pdfs : List Bytes) (i : Nat) (p : Page) : Prop :=
  ∃ h : i < footer_pdfs.length,
    openPdf env (footer_pdfs.get ⟨i, h⟩) = .error () ∨
    ∃ gs, openPdf env (footer_pdfs.get ⟨i, h⟩) = .ok gs ∧
      ∃ h0 : 0 < gs.length, env.hasAddOverlay = true ∧
        env.overlayFails p (gs.get ⟨0, h0⟩) = true

instance {ε α : Type} [DecidableEq ε] [DecidableEq α] : DecidableEq (Except ε α) :=
  fun a b =>
  match a, b with
  | .error e, .error f =>
    if h : e = f then .isTrue (by rw [h]) else .isFalse (by simp [h])
  | .ok x, .ok y =>
    if h : x = y then .isTrue (by rw [h]) else .isFalse (by simp [h])
  | .error _, .ok _ => .isFalse (by simp)
  | .ok _, .error _ => .isFalse (by simp)

/-- A benign oracle set: every render succeeds with status 200 and an opaque
body, every pikepdf operation succeeds, saving reserializes the page list. -/
def envAlwaysOk : Env where
  render := fun _ _ => (200, .raw 1)
  chunk := fun _ _ _ => .raw 0
  renderFooter := fun _ => "f"
  renderAdhoc := fun _ _ => "h"
  openFails := fun _ => false
  overlayFails := fun _ _ => false
  hasAddOverlay := true
  saveFails := fun _ => false
  saveBytes := Bytes.pdf

/-- A renderer answering `304 Not Modified` with body `raw 5`. -/
def envStatus304 : Env where
  render := fun _ _ => (304, .raw 5)
  chunk := fun _ _ _ => .raw 0
  renderFooter := fun _ => "f"
  renderAdhoc := fun _ _ => "h"
  openFails := fun _ => false
  overlayFails := fun _ _ => false
  hasAddOverlay := true
  saveFails := fun _ => false
  saveBytes := Bytes.pdf

/-- A renderer always producing a 0-page PDF; `pikepdf` save produces fresh
bytes (`raw 7`) that differ from any input byte string. -/
def envEmptyFirstPass : Env where
  render := fun _ _ => (200, .pdf [])
  chunk := fun _ _ _ => .raw 0
  renderFooter := fun _ => "f"
  renderAdhoc := fun _ _ => "h"
  openFails := fun _ => false
  overlayFails := fun _ _ => false
  hasAddOverlay := true
  saveFails := fun _ => false
  saveBytes := fun _ => .raw 7

/-- A renderer always producing a fixed one-page PDF. -/
def envOnePage : Env where
  render := fun _ _ => (200, .pdf [⟨1, []⟩])
  chunk := fun _ _ _ => .raw 0
  renderFooter := fun _ => "f"
  renderAdhoc := fun _ _ => "h"
  openFails := fun _ => false
  overlayFails := fun _ _ => false
  hasAddOverlay := true
  saveFails := fun _ => false
  saveBytes := Bytes.pdf

/-- Oracles where every `add_overlay` call raises. -/
def envOverlayFail : Env where
  render := fun _ _ => (200, .raw 1)
  chunk := fun _ _ _ => .raw 0
  renderFooter := fun _ => "f"
  renderAdhoc := fun _ _ => "h"
  openFails := fun _ => false
  overlayFails := fun _ _ => true
  hasAddOverlay := true
  saveFails := fun _ => false
  saveBytes := Bytes.pdf

/-! ## Basic lemmas about the store and dicts -/

theorem readRef_append_self (st : Store) (d : TemplateArgs) :
    readRef (st ++ [d]) st.length = d := by
  induction st with
  | nil => rfl
  | cons a st ih =>
    simp only [List.cons_append, List.length_cons, readRef, List.getD_cons_succ]
    exact ih

theorem set_append_last (st : Store) (d x : TemplateArgs) :
    (st ++ [d]).set st.length x = st ++ [x] := by
  induction st with
  | nil => rfl
  | cons a st ih => simp [List.set, ih]

theorem readRef_append_lt (st ext : Store) (r : Ref) (h : r < st.length) :
    readRef (st ++ ext) r = readRef st r := by
  induction st generalizing r with
  | nil => exact absurd h (Nat.not_lt_zero r)
  | cons a st ih =>
    cases r with
    | zero => rfl
    | succ r =>
      have := ih r (Nat.lt_of_succ_lt_succ h)
      simpa [readRef, List.getD] using this

theorem getKey?_setKey_self (d : TemplateArgs) (k : String) (v : Value) :
    getKey? (setKey d k v) k = some v := by
  induction d with
  | nil => simp [setKey, getKey?]
  | cons p rest ih =>
    by_cases h : p.1 = k
    · simp [setKey, getKey?, h]
    · simp [setKey, getKey?, h, ih]

theorem getKey?_setKey_other (d : TemplateArgs) (k k' : String) (v : Value)
    (h : k ≠ k') : getKey? (setKey d k v) k' = getKey? d k' := by
  induction d with
  | nil => simp [setKey, getKey?, h]
  | cons p rest ih =>
    by_cases hp : p.1 = k
    · simp [setKey, getKey?, hp, h]
    · simp [setKey, getKey?, hp, ih]

theorem getKey?_page_args_current (d : TemplateArgs) (cp tp : Nat) :
    getKey? (page_args_for d cp tp) "current_page" = some (.vNat cp) := by
  rw [page_args_for, getKey?_setKey_other _ _ _ _ (by decide), getKey?_setKey_self]

theorem getKey?_page_args_total (d : TemplateArgs) (cp tp : Nat) :
    getKey? (page_args_for d cp tp) "total_pages" = some (.vNat tp) := by
  rw [page_args_for, getKey?_setKey_self]

/-! ## The shape of one footer-generation call -/

theorem generate_single_footer_pdf_some (env : Env) (st : Store) (r : Ref)
    (cp tp : Nat) :
    generate_single_footer_pdf env st (some r) cp tp =
      (httpResult (env.render (footerFiles env (page_args_for (readRef st r) cp tp))
          (some "footer.html")),
       st ++ [page_args_for (readRef st r) cp tp],
       [.footerCtx (page_args_for (readRef st r) cp tp),
        .render (footerFiles env (page_args_for (readRef st r) cp tp))
          (some "footer.html")]) := by
  show (let a := alloc st (readRef st r); _) = _
  simp only [generate_single_footer_pdf, alloc, writeKey, footerFiles, page_args_for]
  rw [readRef_append_self, set_append_last]
  rw [readRef_append_self, set_append_last]
  rw [readRef_append_self]

theorem generate_single_footer_pdf_frame (env : Env) (st : Store) (r r' : Ref)
    (cp tp : Nat) (h : r < st.length) :
    readRef ((generate_single_footer_pdf env st (some r') cp tp).2.1) r =
      readRef st r := by
  rw [generate_single_footer_pdf_some]
  exact readRef_append_lt st _ r h

/-! ## The footer-generation loop: store framing -/

theorem footerLoop_store_ext (env : Env) (targs : Option Ref) (tp : Nat) :
    ∀ (ps : List Nat) (st : Store),
      ∃ ext, (footerLoop env targs tp ps st).2.1 = st ++ ext := by
  intro ps
  induction ps with
  | nil => exact fun st => ⟨[], by simp [footerLoop]⟩
  | cons p ps ih =>
    intro st
    cases targs with
    | none => exact ⟨[], by simp [footerLoop, generate_single_footer_pdf]⟩
    | some r =>
      rw [footerLoop, generate_single_footer_pdf_some]
      generalize httpResult (env.render
          (footerFiles env (page_args_for (readRef st r) p tp)) (some "footer.html")) = hr
      obtain e | b := hr
      · exact ⟨[page_args_for (readRef st r) p tp], rfl⟩
      · obtain ⟨ext, hext⟩ := ih (st ++ [page_args_for (readRef st r) p tp])
        refine ⟨page_args_for (readRef st r) p tp :: ext, ?_⟩
        split
        · rename_i v st2 evs2 heq
          simp at heq
        · rename_i v st2 evs2 heq
          have hst2 : st2 = st ++ [page_args_for (readRef st r) p tp] := by
            have := congrArg (·.2.1) heq
            simpa using this.symm
          subst hst2
          split <;> rename_i bs st3 evs3 heq2 <;> rw [heq2] at hext <;>
            simpa using hext

theorem footerLoop_frame (env : Env) (targs : Option Ref) (tp : Nat)
    (ps : List Nat) (st : Store) (r : Ref) (h : r < st.length) :
    readRef ((footerLoop env targs tp ps st).2.1) r = readRef st r := by
  obtain ⟨ext, hext⟩ := footerLoop_store_ext env targs tp ps st
  rw [hext]
  exact readRef_append_lt st ext r h

/-! ## Trace projections -/

@[simp] theorem ctxsOf_nil : ctxsOf [] = [] := rfl

@[simp] theorem ctxsOf_cons_ctx (a : TemplateArgs) (tr : List Event) :
    ctxsOf (.footerCtx a :: tr) = a :: ctxsOf tr := rfl

@[simp] theorem ctxsOf_cons_render (f : List (String × String)) (d : Option String)
    (tr : List Event) : ctxsOf (.render f d :: tr) = ctxsOf tr := rfl

@[simp] theorem ctxsOf_cons_chunk (nm : Option String) (g : Bool)
    (tr : List Event) : ctxsOf (.chunkCall nm g :: tr) = ctxsOf tr := rfl

@[simp] theorem ctxsOf_cons_warn (tr : List Event) :
    ctxsOf (.warn :: tr) = ctxsOf tr := rfl

@[simp] theorem ctxsOf_cons_err (tr : List Event) :
    ctxsOf (.err :: tr) = ctxsOf tr := rfl

@[simp] theorem ctxsOf_append (a b : List Event) :
    ctxsOf (a ++ b) = ctxsOf a ++ ctxsOf b := by
  simp [ctxsOf, List.filterMap_append]

@[simp] theorem rendersOf_nil : rendersOf [] = [] := rfl

@[simp] theorem rendersOf_cons_render (f : List (String × String)) (d : Option String)
    (tr : List Event) : rendersOf (.render f d :: tr) = (f, d) :: rendersOf tr := rfl

@[simp] theorem rendersOf_cons_ctx (a : TemplateArgs) (tr : List Event) :
    rendersOf (.footerCtx a :: tr) = rendersOf tr := rfl

@[simp] theorem rendersOf_cons_chunk (nm : Option String) (g : Bool)
    (tr : List Event) : rendersOf (.chunkCall nm g :: tr) = rendersOf tr := rfl

@[simp] theorem rendersOf_cons_warn (tr : List Event) :
    rendersOf (.warn :: tr) = rendersOf tr := rfl

@[simp] theorem rendersOf_cons_err (tr : List Event) :
    rendersOf (.err :: tr) = rendersOf tr := rfl

@[simp] theorem rendersOf_append (a b : List Event) :
    rendersOf (a ++ b) = rendersOf a ++ rendersOf b := by
  simp [rendersOf, List.filterMap_append]

/-! ## The footer-generation loop: result and contexts -/

theorem footerLoop_ok_spec (env : Env) (targs : Option Ref) (tp : Nat) :
    ∀ (ps : List Nat) (st : Store) (bs : List Bytes) (st' : Store) (tr : List Event),
      footerLoop env targs tp ps st = (.ok bs, st', tr) →
      bs.length = ps.length ∧ (ctxsOf tr).length = ps.length ∧
      ∀ (k pk : Nat), ps[k]? = some pk →
        ∃ ctx, (ctxsOf tr)[k]? = some ctx ∧
          getKey? ctx "current_page" = some (.vNat pk) ∧
          getKey? ctx "total_pages" = some (.vNat tp) := by
  intro ps
  induction ps with
  | nil =>
    intro st bs st' tr hyp
    rw [footerLoop] at hyp
    simp only [Prod.mk.injEq, Except.ok.injEq] at hyp
    obtain ⟨h1, _, h3⟩ := hyp
    subst h1; subst h3
    simp
  | cons p ps ih =>
    intro st bs st' tr hyp
    cases targs with
    | none =>
      rw [footerLoop] at hyp
      simp [generate_single_footer_pdf] at hyp
    | some r =>
      rw [footerLoop, generate_single_footer_pdf_some] at hyp
      split at hyp
      · rename_i v st2 evs2 heq
        simp at hyp
      · rename_i v st2 evs2 heq
        have hst2 : st2 = st ++ [page_args_for (readRef st r) p tp] := by
          have := congrArg (·.2.1) heq
          simpa using this.symm
        have hevs2 : evs2 =
            [.footerCtx (page_args_for (readRef st r) p tp),
             .render (footerFiles env (page_args_for (readRef st r) p tp))
               (some "footer.html")] := by
          have := congrArg (·.2.2) heq
          simpa using this.symm
        split at hyp
        · simp at hyp
        · rename_i bs' st3 evs3 heq2
          simp only [Prod.mk.injEq, Except.ok.injEq] at hyp
          obtain ⟨h1, _, h3⟩ := hyp
          subst h1; subst h3
          obtain ⟨l1, l2, l3⟩ := ih st2 bs' st3 evs3 heq2
          subst hevs2
          refine ⟨by simp [l1], by simp [l2], ?_⟩
          intro k pk hk
          cases k with
          | zero =>
            simp only [List.getElem?_cons_zero, Option.some.injEq] at hk
            subst hk
            exact ⟨page_args_for (readRef st r) p tp, by simp,
              getKey?_page_args_current _ _ _, getKey?_page_args_total _ _ _⟩
          | succ k =>
            simp only [List.getElem?_cons_succ] at hk
            obtain ⟨ctx, hc1, hc2, hc3⟩ := l3 k pk hk
            exact ⟨ctx, by simpa using hc1, hc2, hc3⟩

/-! ## The overlay pass -/

theorem openPdf_ok_pdf (env : Env) (b : Bytes) (ps : List Page)
    (h : openPdf env b = .ok ps) : b = .pdf ps := by
  cases b with
  | raw id => simp [openPdf] at h
  | pdf qs =>
    by_cases hf : env.openFails (.pdf qs)
    · simp [openPdf, hf] at h
    · simp [openPdf, hf] at h
      simp [h]

theorem overlayLoop_length (env : Env) (fs : List Bytes) :
    ∀ (ps : List Page) (i : Nat),
      ((overlayLoop env fs i ps).1).length = ps.length := by
  intro ps
  induction ps with
  | nil => intro i; simp [overlayLoop]
  | cons p ps ih => intro i; simp [overlayLoop, ih]

theorem overlayLoop_getElem (env : Env) (fs : List Bytes) :
    ∀ (ps : List Page) (i j : Nat),
      ((overlayLoop env fs i ps).1)[j]? =
        (ps[j]?).map (fun p => (overlayOnePage env p (i + j) fs).1) := by
  intro ps
  induction ps with
  | nil => intro i j; simp [overlayLoop]
  | cons p ps ih =>
    intro i j
    cases j with
    | zero => simp [overlayLoop]
    | succ j =>
      have hadd : i + 1 + j = i + (j + 1) := by omega
      simp only [overlayLoop, List.getElem?_cons_succ]
      rw [ih (i + 1) j, hadd]

theorem overlayOnePage_beyond (env : Env) (p : Page) (i : Nat) (fs : List Bytes)
    (h : fs.length ≤ i) : overlayOnePage env p i fs = (p, []) := by
  rw [overlayOnePage, dif_neg (by omega)]

theorem overlayOnePage_fails (env : Env) (fs : List Bytes) (i : Nat) (p : Page)
    (hf : footerPageFails env fs i p) :
    overlayOnePage env p i fs = (p, [.warn]) := by
  obtain ⟨h, hcase⟩ := hf
  rw [overlayOnePage, dif_pos h]
  cases hcase with
  | inl hopen => rw [hopen]
  | inr hov =>
    obtain ⟨gs, hgs, h0, hattr, hfail⟩ := hov
    rw [hgs]
    simp only [dif_pos h0]
    simp only [List.get_eq_getElem] at hfail
    simp [overlay_page_content, hattr, hfail]

theorem overlayOnePage_take (env : Env) (p : Page) (i : Nat) (fs : List Bytes)
    (m : Nat) (him : i < m) :
    overlayOnePage env p i (fs.take m) = overlayOnePage env p i fs := by
  by_cases h : i < fs.length
  · have ht : i < (fs.take m).length := by
      simp only [List.length_take]
      omega
    rw [overlayOnePage, dif_pos ht, overlayOnePage, dif_pos h]
    have hget : (fs.take m).get ⟨i, ht⟩ = fs.get ⟨i, h⟩ := by
      simp [List.getElem_take]
    rw [hget]
  · have h2 : ¬ i < (fs.take m).length := by
      simp only [List.length_take]
      omega
    rw [overlayOnePage, dif_neg h2, overlayOnePage, dif_neg h]

theorem overlayLoop_take (env : Env) (fs : List Bytes) :
    ∀ (ps : List Page) (n : Nat),
      overlayLoop env (fs.take (n + ps.length)) n ps = overlayLoop env fs n ps := by
  intro ps
  induction ps with
  | nil => intro n; rfl
  | cons p ps ih =>
    intro n
    have hm : n < n + (p :: ps).length := by simp
    simp only [overlayLoop]
    rw [overlayOnePage_take env p n fs _ hm]
    have heq : n + (p :: ps).length = (n + 1) + ps.length := by
      simp only [List.length_cons]
      omega
    rw [heq, ih (n + 1)]

/-! ## Claim theorems -/

/-- C1: `_finalize_pdf` evaluates its decision policy in strict order: a
statement-report name with a truthy `groupedInvoices` returns exactly the
chunking collaborator's result with no renderer call; else a statement report
with `generate_page_number` runs the multi-pass flow; else a single direct
render with no footer is performed. -/
theorem finalize_pdf_routing_policy (env : Env) (st : Store) (nm : Option String)
    (targs : Option Ref) (html : String) (gpn : Bool) :
    (is_statement_name nm = true → has_grouped (targs.map (readRef st)) = true →
      finalize_pdf env st nm targs html gpn =
        (.ok (env.chunk nm (targs.map (readRef st)) gpn), st, [.chunkCall nm gpn]) ∧
      rendersOf (finalize_pdf env st nm targs html gpn).2.2 = []) ∧
    (is_statement_name nm = true → has_grouped (targs.map (readRef st)) = false →
      gpn = true →
      finalize_pdf env st nm targs html gpn =
        generate_pdf_with_page_numbers env st targs html) ∧
    (¬(is_statement_name nm = true ∧ has_grouped (targs.map (readRef st)) = true) →
      ¬(is_statement_name nm = true ∧ gpn = true) →
      finalize_pdf env st nm targs html gpn =
        ((generate_pdf env html gpn none).1, st, (generate_pdf env html gpn none).2) ∧
      rendersOf (finalize_pdf env st nm targs html gpn).2.2 =
        [([("index.html", html)], none)]) := by
  refine ⟨?_, ?_, ?_⟩
  · intro h1 h2
    have he : finalize_pdf env st nm targs html gpn =
        (.ok (env.chunk nm (targs.map (readRef st)) gpn), st, [.chunkCall nm gpn]) := by
      simp [finalize_pdf, h1, h2]
    exact ⟨he, by rw [he]; rfl⟩
  · intro h1 h2 h3
    simp [finalize_pdf, h1, h2, h3]
  · intro h1 h2
    have hcond1 : (is_statement_name nm && has_grouped (targs.map (readRef st))) = false := by
      cases hs : is_statement_name nm <;>
        cases hg : has_grouped (targs.map (readRef st)) <;> simp_all
    have hcond2 : (is_statement_name nm && gpn) = false := by
      cases hs : is_statement_name nm <;> cases hg : gpn <;> simp_all
    have he : finalize_pdf env st nm targs html gpn =
        ((generate_pdf env html gpn none).1, st, (generate_pdf env html gpn none).2) := by
      simp [finalize_pdf, hcond1, hcond2]
    refine ⟨he, ?_⟩
    rw [he]
    simp [generate_pdf, footerTruthy]

theorem finalize_pdf_routing_policy_witness :
    finalize_pdf envAlwaysOk [[("groupedInvoices", Value.vList [Value.vNone])]]
      (some "statement_report") (some 0) "h" false =
      (.ok (.raw 0), [[("groupedInvoices", Value.vList [Value.vNone])]],
       [.chunkCall (some "statement_report") false]) := by
  have h := (finalize_pdf_routing_policy envAlwaysOk
      [[("groupedInvoices", Value.vList [Value.vNone])]]
      (some "statement_report") (some 0) "h" false).1 (by decide) (by decide)
  exact h.1

/-- C2: for every page count `N`, a successful `_generate_footer_pdfs` run
produces exactly `N` footer documents, and the `k`-th footer (1-based) is
rendered from a context carrying `current_page = k` and `total_pages = N`,
in page-index order. -/
theorem generate_footer_pdfs_contexts (env : Env) (st : Store) (targs : Option Ref)
    (N : Nat) (bs : List Bytes) (st' : Store) (tr : List Event)
    (h : generate_footer_pdfs env st targs N = (.ok bs, st', tr)) :
    bs.length = N ∧ (ctxsOf tr).length = N ∧
    ∀ (k : Nat), k < N →
      ∃ ctx, (ctxsOf tr)[k]? = some ctx ∧
        getKey? ctx "current_page" = some (.vNat (k + 1)) ∧
        getKey? ctx "total_pages" = some (.vNat N) := by
  obtain ⟨h1, h2, h3⟩ :=
    footerLoop_ok_spec env targs N ((List.range N).map (· + 1)) st bs st' tr h
  refine ⟨by simpa using h1, by simpa using h2, ?_⟩
  intro k hk
  exact h3 k (k + 1) (by simp [List.getElem?_map, List.getElem?_range hk])

theorem generate_footer_pdfs_contexts_witness :
    ∃ ctx,
      (ctxsOf [Event.footerCtx [("current_page", Value.vNat 1), ("total_pages", Value.vNat 1)],
        Event.render [("index.html", emptyHtml), ("footer.html", "f")]
          (some "footer.html")])[0]? = some ctx ∧
      getKey? ctx "current_page" = some (.vNat 1) ∧
      getKey? ctx "total_pages" = some (.vNat 1) := by
  have h := generate_footer_pdfs_contexts envAlwaysOk [[]] (some 0) 1 [.raw 1]
      [[], [("current_page", Value.vNat 1), ("total_pages", Value.vNat 1)]]
      [Event.footerCtx [("current_page", Value.vNat 1), ("total_pages", Value.vNat 1)],
       Event.render [("index.html", emptyHtml), ("footer.html", "f")] (some "footer.html")]
      (by rfl)
  exact h.2.2 0 (by decide)

/-- C8: `generate_single_footer_pdf` never mutates the `template_args` dict
passed to it: `current_page`/`total_pages` are set on a copy (the rendered
context is exactly that copy), and both after one call and after all `N`
per-page calls the caller's dict holds exactly the entries it held before. -/
theorem single_footer_no_mutation (env : Env) (st : Store) (r : Ref)
    (cp tp N : Nat) (h : r < st.length) :
    readRef ((generate_single_footer_pdf env st (some r) cp tp).2.1) r = readRef st r ∧
    ctxsOf (generate_single_footer_pdf env st (some r) cp tp).2.2 =
      [page_args_for (readRef st r) cp tp] ∧
    readRef ((generate_footer_pdfs env st (some r) N).2.1) r = readRef st r := by
  refine ⟨generate_single_footer_pdf_frame env st r r cp tp h, ?_,
    footerLoop_frame env (some r) N _ st r h⟩
  rw [generate_single_footer_pdf_some]
  rfl

theorem single_footer_no_mutation_witness :
    readRef ((generate_single_footer_pdf envAlwaysOk [[("a", Value.vNone)]]
        (some 0) 1 2).2.1) 0 = [("a", Value.vNone)] ∧
    readRef ((generate_footer_pdfs envAlwaysOk [[("a", Value.vNone)]]
        (some 0) 2).2.1) 0 = [("a", Value.vNone)] := by
  have h := single_footer_no_mutation envAlwaysOk [[("a", Value.vNone)]] 0 1 2 2
      (by decide)
  exact ⟨h.1, h.2.2⟩

/-- C3: a multi-pass composition that completes the overlay pass returns a
document whose page count equals the first-pass main document's page count
(assuming `pikepdf` serialization preserves page count). -/
theorem overlay_preserves_page_count (env : Env) (b : Bytes) (fs : List Bytes)
    (ps : List Page) (hopen : openPdf env b = .ok ps)
    (hsave : ∀ qs, get_pdf_page_count (env.saveBytes qs) = qs.length)
    (hnofail : env.saveFails ((overlayLoop env fs 0 ps).1) = false) :
    get_pdf_page_count ((overlay_footer_pdfs_on_main_pdf env b fs).1) =
      get_pdf_page_count b := by
  have hb := openPdf_ok_pdf env b ps hopen
  have hres : overlay_footer_pdfs_on_main_pdf env b fs =
      (env.saveBytes ((overlayLoop env fs 0 ps).1), (overlayLoop env fs 0 ps).2) := by
    simp [overlay_footer_pdfs_on_main_pdf, hopen, hnofail]
  rw [hres, hsave, overlayLoop_length env fs ps 0, hb]
  rfl

theorem overlay_preserves_page_count_witness :
    get_pdf_page_count ((overlay_footer_pdfs_on_main_pdf envAlwaysOk
      (.pdf [⟨1, []⟩]) []).1) = get_pdf_page_count (Bytes.pdf [⟨1, []⟩]) :=
  overlay_preserves_page_count envAlwaysOk (.pdf [⟨1, []⟩]) [] [⟨1, []⟩]
    (by rfl) (fun _ => by rfl) (by rfl)

/-- C4: per-page overlay failures are isolated: when page `i`'s footer fails
to open or merge, the failure is caught and logged (`warn`), that page is
copied into the result without its overlay, composition continues (result
length is preserved), and with a working save the pass still returns the
assembled result rather than an error. -/
theorem overlay_per_page_failure_isolated (env : Env) (b : Bytes) (fs : List Bytes)
    (ps : List Page) (hopen : openPdf env b = .ok ps) :
    ((overlayLoop env fs 0 ps).1).length = ps.length ∧
    (∀ (i : Nat) (p : Page), ps[i]? = some p → footerPageFails env fs i p →
      ((overlayLoop env fs 0 ps).1)[i]? = some p ∧
      (overlayOnePage env p i fs).2 = [.warn]) ∧
    (env.saveFails ((overlayLoop env fs 0 ps).1) = false →
      (overlay_footer_pdfs_on_main_pdf env b fs).1 =
        env.saveBytes ((overlayLoop env fs 0 ps).1)) := by
  refine ⟨overlayLoop_length env fs ps 0, ?_, ?_⟩
  · intro i p hp hf
    have hchar := overlayLoop_getElem env fs ps 0 i
    have hfail := overlayOnePage_fails env fs i p hf
    constructor
    · rw [hchar, hp]
      simp [Nat.zero_add, hfail]
    · rw [hfail]
  · intro hnf
    simp [overlay_footer_pdfs_on_main_pdf, hopen, hnf]

theorem overlay_per_page_failure_isolated_witness :
    ((overlayLoop envOverlayFail [Bytes.pdf [⟨9, []⟩]] 0 [⟨1, []⟩]).1)[0]? =
      some ⟨1, []⟩ ∧
    (overlayOnePage envOverlayFail ⟨1, []⟩ 0 [Bytes.pdf [⟨9, []⟩]]).2 =
      [.warn] := by
  have h := overlay_per_page_failure_isolated envOverlayFail (.pdf [⟨1, []⟩])
      [Bytes.pdf [⟨9, []⟩]] [⟨1, []⟩] (by rfl)
  exact h.2.1 0 ⟨1, []⟩ (by rfl)
    ⟨by decide, .inr ⟨[⟨9, []⟩], by rfl, by decide, by rfl, by rfl⟩⟩

/-- C5: if the overlay pass as a whole fails, `_overlay_footer_pdfs_on_main_pdf`
does not raise: when opening the main document fails it returns the first-pass
bytes unchanged (logging an error), and when serialization fails it likewise
returns the first-pass bytes unchanged. -/
theorem overlay_whole_pass_fallback (env : Env) (b : Bytes) (fs : List Bytes) :
    (openPdf env b = .error () →
      overlay_footer_pdfs_on_main_pdf env b fs = (b, [.err])) ∧
    (∀ ps, openPdf env b = .ok ps →
      env.saveFails ((overlayLoop env fs 0 ps).1) = true →
      (overlay_footer_pdfs_on_main_pdf env b fs).1 = b) := by
  constructor
  · intro h
    simp [overlay_footer_pdfs_on_main_pdf, h]
  · intro ps h hsf
    simp [overlay_footer_pdfs_on_main_pdf, h, hsf]

theorem overlay_whole_pass_fallback_witness :
    overlay_footer_pdfs_on_main_pdf envAlwaysOk (.raw 0) [] = (.raw 0, [.err]) :=
  (overlay_whole_pass_fallback envAlwaysOk (.raw 0) []).1 (by rfl)

/-- C7: when footer count and main page count diverge, footers beyond the
main page count are unused (the loop's outcome depends only on the first
`ps.length` footers) and main pages beyond the footer count are copied
un-overlaid, with no error raised for the divergence. -/
theorem overlay_divergence_tolerated (env : Env) (fs : List Bytes) (ps : List Page) :
    overlayLoop env fs 0 ps = overlayLoop env (fs.take ps.length) 0 ps ∧
    ∀ (i : Nat), fs.length ≤ i →
      ((overlayLoop env fs 0 ps).1)[i]? = ps[i]? := by
  constructor
  · have := overlayLoop_take env fs ps 0
    simpa using this.symm
  · intro i hi
    rw [overlayLoop_getElem env fs ps 0 i]
    have hfun : ∀ p : Page, (overlayOnePage env p (0 + i) fs).1 = p := by
      intro p
      rw [overlayOnePage_beyond env p (0 + i) fs (by omega)]
    simp only [hfun]
    simp

theorem overlay_divergence_tolerated_witness :
    ((overlayLoop envAlwaysOk [] 0 [⟨1, []⟩]).1)[0]? = ([⟨1, []⟩] : List Page)[0]? :=
  (overlay_divergence_tolerated envAlwaysOk [] [⟨1, []⟩]).2 0 (by decide)

/-! ## Overlay-pass traces contain no renderer calls or contexts -/

theorem overlay_page_content_trace (env : Env) (bp op : Page) :
    (overlay_page_content env bp op).2 = [] ∨
    (overlay_page_content env bp op).2 = [.warn] := by
  rw [overlay_page_content]
  split
  · split
    · exact .inr rfl
    · exact .inl rfl
  · exact .inl rfl

theorem overlayOnePage_trace (env : Env) (p : Page) (i : Nat) (fs : List Bytes) :
    (overlayOnePage env p i fs).2 = [] ∨
    (overlayOnePage env p i fs).2 = [.warn] := by
  rw [overlayOnePage]
  split
  · split
    · exact .inr rfl
    · split
      · exact overlay_page_content_trace env p _
      · exact .inl rfl
  · exact .inl rfl

theorem overlayLoop_trace (env : Env) (fs : List Bytes) :
    ∀ (ps : List Page) (i : Nat),
      ctxsOf ((overlayLoop env fs i ps).2) = [] ∧
      rendersOf ((overlayLoop env fs i ps).2) = [] := by
  intro ps
  induction ps with
  | nil => intro i; simp [overlayLoop]
  | cons p ps ih =>
    intro i
    obtain ⟨hc, hr⟩ := ih (i + 1)
    rcases overlayOnePage_trace env p i fs with h1 | h1 <;>
      simp [overlayLoop, h1, hc, hr]

theorem overlay_trace_no_renders (env : Env) (b : Bytes) (fs : List Bytes) :
    ctxsOf (overlay_footer_pdfs_on_main_pdf env b fs).2 = [] ∧
    rendersOf (overlay_footer_pdfs_on_main_pdf env b fs).2 = [] := by
  rw [overlay_footer_pdfs_on_main_pdf]
  split
  · simp
  · rename_i fpages heq
    obtain ⟨hc, hr⟩ := overlayLoop_trace env fs fpages 0
    by_cases hsf : env.saveFails ((overlayLoop env fs 0 fpages).1) = true <;>
      simp [hsf, hc, hr]

/-- C6 counterexample: with a renderer whose first pass yields a 0-page PDF
and a `pikepdf` save that produces fresh bytes, the multi-pass flow makes
zero footer-generation calls but returns the fresh serialization `raw 7`,
which is not byte-identical to the first-pass bytes `pdf []`. -/
theorem multi_pass_zero_pages_not_byte_identical :
    (generate_pdf envEmptyFirstPass "h" false none).1 = .ok (.pdf []) ∧
    get_pdf_page_count (.pdf []) = 0 ∧
    (generate_pdf_with_page_numbers envEmptyFirstPass [] none "h").1 =
      .ok (.raw 7) ∧
    Bytes.raw 7 ≠ Bytes.pdf [] ∧
    ctxsOf (generate_pdf_with_page_numbers envEmptyFirstPass [] none "h").2.2 =
      [] :=
  ⟨rfl, rfl, rfl, by decide, rfl⟩

/-- C6 amended: when the first-pass page count is 0, the multi-pass flow makes
zero footer-generation calls (no footer contexts; exactly the first-pass
render calls), and the result is the first-pass document: its bytes unchanged
when the overlay pass cannot open or save it, and otherwise a fresh 0-page
serialization — same page count, but not necessarily byte-identical. -/
theorem multi_pass_zero_pages_behavior (env : Env) (st : Store)
    (targs : Option Ref) (html : String) (fp : Bytes) (evs : List Event)
    (hfp : generate_pdf env html false none = (.ok fp, evs))
    (hN : get_pdf_page_count fp = 0) :
    ctxsOf (generate_pdf_with_page_numbers env st targs html).2.2 = [] ∧
    rendersOf (generate_pdf_with_page_numbers env st targs html).2.2 =
      rendersOf evs ∧
    ((generate_pdf_with_page_numbers env st targs html).1 = .ok fp ∨
     (generate_pdf_with_page_numbers env st targs html).1 =
       .ok (env.saveBytes [])) := by
  have hevs2 : evs = [Event.render [("index.html", html)] none] := by
    have h2 := congrArg (·.2) hfp
    simp only at h2
    rw [← h2]
    rfl
  have hunfold : generate_pdf_with_page_numbers env st targs html =
      (.ok (overlay_footer_pdfs_on_main_pdf env fp []).1, st,
       evs ++ (overlay_footer_pdfs_on_main_pdf env fp []).2) := by
    simp [generate_pdf_with_page_numbers, hfp, hN, generate_footer_pdfs,
      footerLoop]
  obtain ⟨hctx, hrnd⟩ := overlay_trace_no_renders env fp []
  refine ⟨?_, ?_, ?_⟩
  · rw [hunfold]
    simp [hevs2, hctx]
  · rw [hunfold]
    simp [hrnd]
  · rw [hunfold]
    cases hov : openPdf env fp with
    | error e =>
      left
      have hovr : overlay_footer_pdfs_on_main_pdf env fp [] = (fp, [.err]) := by
        simp [overlay_footer_pdfs_on_main_pdf, hov]
      simp [hovr]
    | ok mps =>
      have hfp2 := openPdf_ok_pdf env fp mps hov
      have hmps : mps = [] := by
        rw [hfp2] at hN
        simpa [get_pdf_page_count] using hN
      subst hmps
      by_cases hsf : env.saveFails ((overlayLoop env [] 0 ([] : List Page)).1) = true
      · left
        have hovr : overlay_footer_pdfs_on_main_pdf env fp [] =
            (fp, (overlayLoop env [] 0 ([] : List Page)).2 ++ [.err]) := by
          simp [overlay_footer_pdfs_on_main_pdf, hov, hsf]
        simp [hovr]
      · right
        have hsf2 : env.saveFails ((overlayLoop env [] 0 ([] : List Page)).1) = false := by
          simpa using hsf
        have hovr : overlay_footer_pdfs_on_main_pdf env fp [] =
            (env.saveBytes ((overlayLoop env [] 0 ([] : List Page)).1),
             (overlayLoop env [] 0 ([] : List Page)).2) := by
          simp [overlay_footer_pdfs_on_main_pdf, hov, hsf2]
        simp [hovr]
        rfl

theorem multi_pass_zero_pages_behavior_witness :
    ctxsOf (generate_pdf_with_page_numbers envEmptyFirstPass [[]] (some 0)
      "h").2.2 = [] ∧
    rendersOf (generate_pdf_with_page_numbers envEmptyFirstPass [[]] (some 0)
      "h").2.2 = rendersOf [Event.render [("index.html", "h")] none] := by
  have h := multi_pass_zero_pages_behavior envEmptyFirstPass [[]] (some 0) "h"
      (.pdf []) [Event.render [("index.html", "h")] none] (by rfl) (by rfl)
  exact ⟨h.1, h.2.1⟩

/-- C9 counterexample: with footer HTML supplied but page numbering off,
`generate_pdf` submits a single file part; and on a 304 (non-2xx) response it
returns the body instead of raising. -/
theorem generate_pdf_contract_counterexample :
    (generate_pdf envStatus304 "h" false (some "FOOT")).1 = .ok (.raw 5) ∧
    rendersOf (generate_pdf envStatus304 "h" false (some "FOOT")).2 =
      [([("index.html", "h")], none)] ∧
    envStatus304.render [("index.html", "h")] none = (304, .raw 5) :=
  ⟨rfl, rfl, rfl⟩

/-- C9 amended: a render with falsy `generate_page_number and footer_html`
submits exactly one part (`index.html`) and no footer field; `generate_pdf`
submits two parts plus the `footer` instruction exactly when page numbering is
on and the footer HTML is truthy; `generate_single_footer_pdf` always submits
two parts plus the instruction; a call raises an error carrying the upstream
status exactly for statuses in `[400, 600)` (4xx/5xx), and any other status —
2xx or 3xx alike — returns the upstream response bytes. -/
theorem render_request_shape_and_status (env : Env) (html : String) (gpn : Bool)
    (fh : Option String) (st : Store) (r : Ref) (cp tp : Nat) :
    ((gpn && footerTruthy fh) = false →
      generate_pdf env html gpn fh =
        (httpResult (env.render [("index.html", html)] none),
         [.render [("index.html", html)] none])) ∧
    ((gpn && footerTruthy fh) = true →
      generate_pdf env html gpn fh =
        (httpResult (env.render
           [("index.html", html), ("footer.html", fh.getD "")] (some "footer.html")),
         [.render [("index.html", html), ("footer.html", fh.getD "")]
           (some "footer.html")])) ∧
    rendersOf (generate_single_footer_pdf env st (some r) cp tp).2.2 =
      [(footerFiles env (page_args_for (readRef st r) cp tp),
        some "footer.html")] ∧
    (∀ (s : Nat) (c : Bytes), 400 ≤ s → s < 600 →
      httpResult (s, c) = .error (.httpError s)) ∧
    (∀ (s : Nat) (c : Bytes), ¬(400 ≤ s ∧ s < 600) →
      httpResult (s, c) = .ok c) := by
  refine ⟨?_, ?_, ?_, ?_, ?_⟩
  · intro h
    simp [generate_pdf, h]
  · intro h
    simp [generate_pdf, h]
  · rw [generate_single_footer_pdf_some]
    rfl
  · intro s c h1 h2
    simp [httpResult, h1, h2]
  · intro s c h
    simp [httpResult, h]

theorem render_request_shape_and_status_witness :
    generate_pdf envAlwaysOk "h" false none =
      (httpResult (envAlwaysOk.render [("index.html", "h")] none),
       [.render [("index.html", "h")] none]) :=
  (render_request_shape_and_status envAlwaysOk "h" false none [] 0 1 1).1
    (by decide)

/-- C10 counterexample: with a statement-report name, `template_args = None`,
and page numbering on, `_finalize_pdf` is routed to the multi-pass flow, which
raises `AttributeError` at `template_args.copy()` — not to the single direct
render, which would have succeeded. -/
theorem finalize_absent_inputs_counterexample :
    finalize_pdf envOnePage [] (some "statement_report") none "h" true =
      (.error .attributeError, [], [.render [("index.html", "h")] none]) ∧
    (generate_pdf envOnePage "h" true none).1 = .ok (.pdf [⟨1, []⟩]) :=
  ⟨rfl, rfl⟩

/-- C10 amended: routing is total over absent inputs: a `None`/empty template
name is treated as a non-statement report and always routed to the single
direct render; a `None` `template_args` is treated as carrying no grouped
invoices, so the chunking branch is never taken — but with a statement name
and page numbering on, the request still goes to the multi-pass flow; and
`create_report_from_template` substitutes the empty report name when
`templateArgs` lacks `reportName`. -/
theorem finalize_absent_inputs_behavior (env : Env) (st : Store)
    (nm : Option String) (targs : Option Ref) (html : String) (gpn : Bool)
    (d : TemplateArgs) :
    (nm = none ∨ nm = some "" →
      finalize_pdf env st nm targs html gpn =
        ((generate_pdf env html gpn none).1, st,
         (generate_pdf env html gpn none).2)) ∧
    (finalize_pdf env st nm none html gpn =
      if (is_statement_name nm && gpn) = true then
        generate_pdf_with_page_numbers env st none html
      else
        ((generate_pdf env html gpn none).1, st,
         (generate_pdf env html gpn none).2)) ∧
    report_name_of none = .vStr "" ∧
    (getKey? d "reportName" = none → report_name_of (some d) = .vStr "") := by
  refine ⟨?_, ?_, rfl, ?_⟩
  · intro h
    have hnm : is_statement_name nm = false := by
      rcases h with h | h <;> subst h <;> decide
    simp [finalize_pdf, hnm]
  · have hg : has_grouped none = false := rfl
    by_cases hcond : (is_statement_name nm && gpn) = true
    · simp [finalize_pdf, hg, hcond]
    · simp [finalize_pdf, hg, hcond]
  · intro h
    simp [report_name_of, h]

theorem finalize_absent_inputs_behavior_witness :
    finalize_pdf envAlwaysOk [] none none "h" false =
      (.ok (.raw 1), [], [.render [("index.html", "h")] none]) := by
  have h := (finalize_absent_inputs_behavior envAlwaysOk [] none none "h"
      false []).1 (.inl rfl)
  exact h
